import Mathlib

/-!
Shallow embedding of the task/reward layer of `nmmo/task/task_api.py`
(classes `Task` and `OngoingTask`, and the factories `make_same_task` and
`make_team_tasks`), together with theorems checking the specification's
claims about it.

Modelling conventions:
* Python floats are modelled as rationals (`ℚ`); the arithmetic the code
  performs (clamping, subtraction, multiplication) is exact on the
  decimal constants the spec uses.
* The game-state snapshot is an opaque type parameter `GS`; the code only
  ever passes it to `eval_fn`.
* Python `assert` failures, `IndexError` and `KeyError` are modelled with
  `Except String`.
* Agent ids and team ids are `ℕ` (the environment uses positive integer
  ids; `compute_rewards` casts them with `int(...)`).
* `tuple(set(assignee))` deduplicates with an implementation-defined
  iteration order; we model it as `List.dedup` (first occurrence kept):
  membership and size agree with the Python set, only the order of the
  stored tuple is a model choice.
-/

namespace NmmoTask

/-- Which `_map_progress_to_reward` implementation a task uses:
`Task` (the default diff-based reward) or the `OngoingTask` subclass. -/
inductive TaskCls where
  | default
  | ongoing
deriving DecidableEq, Repr

/-- The state of one `Task` object: `_eval_fn`, `_assignee`,
`_reward_multiplier` are fixed at construction; `_progress` and
`_completed` are the mutable progress state. -/
structure Task (GS : Type) where
  eval_fn : GS → ℚ
  assignee : List ℕ
  reward_multiplier : ℚ
  cls : TaskCls
  progress : ℚ := 0
  completed : Bool := false

/-- `max(min(x*1.0, 1.0), 0.0)` from `_map_progress_to_reward`. -/
def clamp01 (x : ℚ) : ℚ := max (min x 1) 0

/-- `Task.__init__` for an iterable assignee: asserts the sequence is
non-empty, deduplicates it, and initialises progress 0 / not completed. -/
def Task.make {GS : Type} (eval_fn : GS → ℚ) (assignee : List ℕ)
    (reward_multiplier : ℚ := 1) (cls : TaskCls := .default) :
    Except String (Task GS) :=
  if assignee.isEmpty then
    .error "Assignee cannot be empty"
  else
    .ok { eval_fn, assignee := assignee.dedup, reward_multiplier, cls }

/-- `Task.__init__` for an `int` assignee: wrapped into a one-element
tuple with no emptiness assertion. -/
def Task.ofSingleton {GS : Type} (eval_fn : GS → ℚ) (agent_id : ℕ)
    (reward_multiplier : ℚ := 1) (cls : TaskCls := .default) : Task GS :=
  { eval_fn, assignee := [agent_id], reward_multiplier, cls }

/-- `_map_progress_to_reward(gs)`: returns the updated task state and the
raw (unscaled) reward.  The `.default` branch is `Task`'s implementation
(early `0.0` return once completed, otherwise clamp, diff, store, latch
completion); the `.ongoing` branch is `OngoingTask`'s override
(unconditional clamp-and-store, completion latch, reward = progress). -/
def Task.step {GS : Type} (t : Task GS) (gs : GS) : Task GS × ℚ :=
  match t.cls with
  | .default =>
    if t.completed then (t, 0)
    else
      let newp := clamp01 (t.eval_fn gs)
      ({ t with progress := newp, completed := decide (1 ≤ newp) },
       newp - t.progress)
  | .ongoing =>
    let newp := clamp01 (t.eval_fn gs)
    ({ t with progress := newp, completed := t.completed || decide (1 ≤ newp) },
     newp)

/-- `compute_rewards(gs)`: scales the raw reward by `_reward_multiplier`
and broadcasts it to every assignee; infos carry the same reward and the
(task-scoped, post-update) progress per assignee.  Returns
(updated task, rewards, infos). -/
def Task.compute_rewards {GS : Type} (t : Task GS) (gs : GS) :
    Task GS × List (ℕ × ℚ) × List (ℕ × ℚ × ℚ) :=
  let s := t.step gs
  let reward := s.2 * t.reward_multiplier
  (s.1, s.1.assignee.map fun ent_id => (ent_id, reward),
   s.1.assignee.map fun ent_id => (ent_id, reward, s.1.progress))

/-- `Task.reset()`: clears progress and completion. -/
def Task.reset {GS : Type} (t : Task GS) : Task GS :=
  { t with progress := 0, completed := false }

/-- The scalar reward stream produced by calling `compute_rewards` once
per game-state snapshot in the list (every assignee receives this same
scalar each tick). -/
def Task.runRewards {GS : Type} : Task GS → List GS → List ℚ
  | _, [] => []
  | t, gs :: rest =>
    let s := t.step gs
    (s.2 * t.reward_multiplier) :: s.1.runRewards rest

/-- The task states after each successive `compute_rewards` call. -/
def Task.runStates {GS : Type} : Task GS → List GS → List (Task GS)
  | _, [] => []
  | t, gs :: rest =>
    let s := t.step gs
    s.1 :: s.1.runStates rest

/-- A kwarg value for the `target` key: either the symbolic string the
caller wrote, or the concrete agent-id tuple that `make_team_tasks`
writes back in place of it. -/
inductive TargetVal where
  | sym (s : String)
  | ids (l : List ℕ)
deriving DecidableEq, Repr

/-- The kwargs dict of one task-spec entry.  Only the keys the engine
inspects (`task_cls`, `target`) are modelled explicitly; every other key
is carried in `extra` and never touched. -/
structure Kwargs where
  task_cls : Option TaskCls := none
  target : Option TargetVal := none
  extra : List (String × String) := []
deriving DecidableEq, Repr

/-- A predicate class, `evaluate`d against a game state, its subject
group and its constructor kwargs.  `isAllDead` marks the concrete class
`base_predicates.AllDead`, which `make_team_tasks` special-cases by
identity (`pred_cls in [bp.AllDead]`). -/
structure PredCls (GS : Type) where
  isAllDead : Bool
  eval : GS → List ℕ → Kwargs → ℚ

/-- A predicate as it appears in a task spec: either a predicate class or
a plain two-argument function that `define_predicate` lifts into one. -/
inductive PredSpec (GS : Type) where
  | cls (c : PredCls GS)
  | fn (f : GS → List ℕ → ℚ)

/-- Modelled from the spec: `define_predicate` (in `predicate_api.py`,
which is not under `src/`) wraps a plain `(game_state, subject)` function
into a predicate class with the same calling convention.  The synthesized
class is never `AllDead`. -/
def define_predicate {GS : Type} (f : GS → List ℕ → ℚ) : PredCls GS :=
  { isAllDead := false, eval := fun gs subject _ => f gs subject }

/-- `if not isinstance(pred_cls, type): pred_cls = define_predicate(...)`. -/
def PredSpec.lift {GS : Type} : PredSpec GS → PredCls GS
  | .cls c => c
  | .fn f => define_predicate f

/-- A predicate instance: the class applied to a subject `Group` and its
kwargs, i.e. `pred_cls(Group(subject), **kwargs)`. -/
structure PredInstance (GS : Type) where
  subject : List ℕ
  kwargs : Kwargs
  pred : PredCls GS

/-- Modelled from the spec: `Predicate.create_task` (in
`predicate_api.py`, not under `src/`) binds the instance's evaluation to
a fresh task of the requested class with the given assignee (the subject
group when none is given); per-task progress state is freshly allocated. -/
def PredInstance.create_task {GS : Type} (p : PredInstance GS)
    (assignee : List ℕ) (task_cls : TaskCls) : Except String (Task GS) :=
  Task.make (fun gs => p.pred.eval gs p.subject p.kwargs) assignee 1 task_cls

/-- `create_task(assignee=agent_id, ...)` with an `int` assignee (no
emptiness assertion on this path). -/
def PredInstance.create_task_single {GS : Type} (p : PredInstance GS)
    (agent_id : ℕ) (task_cls : TaskCls) : Task GS :=
  Task.ofSingleton (fun gs => p.pred.eval gs p.subject p.kwargs) agent_id 1 task_cls

/-- `make_same_task`: one singleton-assignee task per id in `agent_list`,
instantiating the (lifted, shared) predicate once per agent with that
agent as subject. -/
def make_same_task {GS : Type} (predicate : PredSpec GS)
    (agent_list : List ℕ) (task_cls : TaskCls := .default)
    (kwargs : Kwargs := {}) : List (Task GS) :=
  let pc := predicate.lift
  agent_list.map fun agent_id =>
    (PredInstance.mk [agent_id] kwargs pc).create_task_single agent_id task_cls

/-- One entry of `task_spec`: the tuple `(reward_to, pred_cls, kwargs)`. -/
structure SpecEntry (GS : Type) where
  reward_to : String
  pred : PredSpec GS
  kwargs : Kwargs

def REWARD_TO : List String := ["agent", "team"]

def VALID_TARGET : List String :=
  ["left_team", "right_team", "left_team_leader", "right_team_leader"]

/-- Modelled from the spec: `TeamHelper.get_target_agent` (in
`lib/team_helper.py`, not under `src/`) resolves one of the four relative
targets for `team_id` to a concrete agent-id tuple.  The spec fixes only
the interface (team-scoped resolution of the four symbolic values); the
concrete left/right orientation chosen here is one executable
realisation, and no claim depends on the choice. -/
def get_target_agent (teams : List (ℕ × List ℕ)) (team_id : ℕ)
    (target : String) : List ℕ :=
  let n := teams.length
  let i := (teams.map Prod.fst).indexOf team_id
  let left := (teams.getD ((i + 1) % n) (0, [])).2
  let right := (teams.getD ((i + n - 1) % n) (0, [])).2
  if target = "left_team" then left
  else if target = "right_team" then right
  else if target = "left_team_leader" then left.take 1
  else right.take 1

/-- `team_helper.teams[team_id]`: dict lookup of a team's member list. -/
def lookupTeam (teams : List (ℕ × List ℕ)) (team_id : ℕ) :
    Option (List ℕ) :=
  (teams.find? fun p => p.1 == team_id).map Prod.snd

/-- The stage of one `make_team_tasks` loop iteration after `target`
handling: the `AllDead` special case (`kwargs.pop('target')`, predicate
instantiated on the resolved target group) followed by task creation on
the `team` path (one task for the whole member list) or the `agent` path
(one singleton task per member).  Returns the produced tasks together
with the final state of the entry's kwargs dict. -/
def buildStage {GS : Type} (teams : List (ℕ × List ℕ)) (team_id : ℕ)
    (entry : SpecEntry GS) (task_cls : TaskCls)
    (targetResolved : Option (List ℕ)) (kwargs2 : Kwargs) :
    Except String (List (Task GS) × Kwargs) :=
  let pc := entry.pred.lift
  match (if pc.isAllDead then
          match targetResolved with
          | none => .error "KeyError: target"
          | some tgt =>
            .ok (some (PredInstance.mk tgt { kwargs2 with target := none } pc),
                 { kwargs2 with target := none })
         else .ok (none, kwargs2) :
         Except String (Option (PredInstance GS) × Kwargs)) with
  | .error e => .error e
  | .ok (predicate?, kwargs3) =>
    match lookupTeam teams team_id with
    | none => .error "KeyError: team"
    | some members =>
      if entry.reward_to = "team" then
        match (match predicate? with
               | none =>
                 (PredInstance.mk members kwargs3 pc).create_task members task_cls
               | some p => p.create_task members task_cls) with
        | .error e => .error e
        | .ok t => .ok ([t], kwargs3)
      else
        match predicate? with
        | none => .ok (make_same_task (.cls pc) members task_cls kwargs3, kwargs3)
        | some p =>
          .ok (members.map fun a => p.create_task_single a task_cls, kwargs3)

/-- The body of one `make_team_tasks` loop iteration once its spec entry
is in hand: the `reward_to` assertion, the `task_cls` pop, the `target`
pop/validate/resolve/write-back, then `buildStage`.  Returns the tasks
and the final kwargs of the entry. -/
def processEntryCore {GS : Type} (teams : List (ℕ × List ℕ)) (team_id : ℕ)
    (entry : SpecEntry GS) : Except String (List (Task GS) × Kwargs) :=
  if entry.reward_to ∈ REWARD_TO then
    let task_cls := entry.kwargs.task_cls.getD .default
    let kwargs1 : Kwargs := { entry.kwargs with task_cls := none }
    match kwargs1.target with
    | some (.sym s) =>
      if s ∈ VALID_TARGET then
        let tgt := get_target_agent teams team_id s
        buildStage teams team_id entry task_cls (some tgt)
          { kwargs1 with target := some (.ids tgt) }
      else .error "Invalid target"
    | some (.ids _) => .error "Invalid target"
    | none => buildStage teams team_id entry task_cls none kwargs1
  else .error "Wrong reward target"

/-- One `make_team_tasks` loop iteration given its entry: on success the
task-spec list holds, at position `team_id`, the entry with its kwargs as
the loop body left them (the model applies the dict mutation on
successful iterations; Python also mutates on iterations that later
raise, which no claim observes). -/
def processEntry {GS : Type} (teams : List (ℕ × List ℕ))
    (spec : List (SpecEntry GS)) (team_id : ℕ) (entry : SpecEntry GS) :
    Except String (List (Task GS) × List (SpecEntry GS)) :=
  match processEntryCore teams team_id entry with
  | .error msg => .error msg
  | .ok (tasks, kw3) =>
    .ok (tasks, spec.set team_id { entry with kwargs := kw3 })

/-- One iteration of the `make_team_tasks` loop at position `idx`:
`team_id = team_list[idx]`, then `reward_to, pred_cls, kwargs =
task_spec[team_id]` (note: indexed by the team id, not by `idx`), then
the entry is processed. -/
def processOne {GS : Type} (teams : List (ℕ × List ℕ))
    (task_spec : List (SpecEntry GS)) (idx : ℕ) :
    Except String (List (Task GS) × List (SpecEntry GS)) :=
  match teams[idx]? with
  | none => .error "IndexError: team_list"
  | some (team_id, _) =>
    match task_spec[team_id]? with
    | none => .error "IndexError: task_spec"
    | some entry => processEntry teams task_spec team_id entry

/-- The `for idx in range(min(len(team_list), len(task_spec)))` loop,
threading the accumulated task list and the (mutated) task-spec list. -/
def mtt_go {GS : Type} (teams : List (ℕ × List ℕ)) :
    List ℕ → List (SpecEntry GS) → List (Task GS) →
    Except String (List (Task GS) × List (SpecEntry GS))
  | [], spec, tasks => .ok (tasks, spec)
  | idx :: rest, spec, tasks =>
    match processOne teams spec idx with
    | .error e => .error e
    | .ok (new, spec') => mtt_go teams rest spec' (tasks ++ new)

/-- `make_team_tasks(teams, task_spec)`.  `teams` is the ordered mapping
team id → member agent ids.  Python returns only the task list; the model
also returns the final task-spec list, making the in-place kwargs
mutation that the caller observes explicit. -/
def make_team_tasks {GS : Type} (teams : List (ℕ × List ℕ))
    (task_spec : List (SpecEntry GS)) :
    Except String (List (Task GS) × List (SpecEntry GS)) :=
  mtt_go teams (List.range (min teams.length task_spec.length)) task_spec []

/-! ### Helper lemmas -/

lemma clamp01_nonneg (x : ℚ) : 0 ≤ clamp01 x := le_max_right _ _

lemma clamp01_le_one (x : ℚ) : clamp01 x ≤ 1 :=
  max_le (min_le_right _ _) zero_le_one

lemma clamp01_one : clamp01 1 = 1 := by norm_num [clamp01]

/-- The invariant of claim C4: the completion flag tracks `progress >= 1`
and progress stays inside `[0, 1]`. -/
def TaskInv {GS : Type} (t : Task GS) : Prop :=
  (t.completed = true ↔ 1 ≤ t.progress) ∧ 0 ≤ t.progress ∧ t.progress ≤ 1

/-! ### C1 -/

/-- C1: for a default `Task` that is already completed, `compute_rewards`
returns reward `0.0` for every assignee id, whatever `eval_fn` would
return on this game state, and leaves the task state (progress and
completed included) unchanged. -/
theorem default_task_completed_zero_reward {GS : Type} (t : Task GS) (gs : GS)
    (hcls : t.cls = .default) (hc : t.completed = true) :
    t.compute_rewards gs =
      (t, t.assignee.map fun i => (i, 0),
          t.assignee.map fun i => (i, 0, t.progress)) := by
  obtain ⟨ef, as, rm, cls, pr, cm⟩ := t
  simp only at hcls hc
  subst hcls; subst hc
  simp [Task.compute_rewards, Task.step]

/-- Witness for C1 at a concrete completed task whose `eval_fn` would
report further progress. -/
theorem default_task_completed_zero_reward_witness :
    (Task.compute_rewards
        { eval_fn := fun _ => 5, assignee := [3], reward_multiplier := 2,
          cls := .default, progress := 1, completed := true } ()) =
      ({ eval_fn := fun _ => 5, assignee := [3], reward_multiplier := 2,
         cls := .default, progress := 1, completed := true },
       [(3, 0)], [(3, 0, 1)]) :=
  default_task_completed_zero_reward _ () rfl rfl

/-! ### C2 -/

/-- Auxiliary induction for C2: an `OngoingTask` whose evaluation
function returns `1` on every supplied snapshot pays
`reward_multiplier * 1.0` on every tick. -/
lemma ongoing_runRewards_ones {GS : Type} :
    ∀ (gss : List GS) (t : Task GS), t.cls = .ongoing →
      (∀ g ∈ gss, t.eval_fn g = 1) →
      t.runRewards gss = gss.map fun _ => t.reward_multiplier := by
  intro gss
  induction gss with
  | nil => intro t _ _; rfl
  | cons g rest ih =>
    intro t hcls h1
    obtain ⟨ef, as, rm, cls, pr, cm⟩ := t
    simp only at hcls
    subst hcls
    have hg : ef g = 1 := h1 g (List.mem_cons_self _ _)
    have htail := ih { eval_fn := ef, assignee := as, reward_multiplier := rm,
                       cls := .ongoing, progress := clamp01 (ef g),
                       completed := cm || decide (1 ≤ clamp01 (ef g)) }
      rfl (fun g' hg' => h1 g' (List.mem_cons_of_mem _ hg'))
    simp [Task.runRewards, Task.step, hg, clamp01_one] at htail ⊢
    exact htail

/-- C2: each `compute_rewards` call on an `OngoingTask` stores
`clamp(eval_fn(gs), 0, 1)` as the progress unconditionally (no
already-completed shortcut), latches the completion flag once progress
reaches `1`, and pays `progress * reward_multiplier` to every assignee;
and if `eval_fn` returns `1.0` on every tick of a run, the reward is
`reward_multiplier * 1.0` on every tick, including after completion. -/
theorem ongoing_task_compute_rewards {GS : Type} (t : Task GS) (gs : GS)
    (gss : List GS) (hcls : t.cls = .ongoing) :
    (t.compute_rewards gs).1 =
      { t with progress := clamp01 (t.eval_fn gs),
               completed := t.completed || decide (1 ≤ clamp01 (t.eval_fn gs)) } ∧
    (t.compute_rewards gs).2.1 =
      t.assignee.map (fun i => (i, clamp01 (t.eval_fn gs) * t.reward_multiplier)) ∧
    ((∀ g ∈ gss, t.eval_fn g = 1) →
      t.runRewards gss = gss.map fun _ => t.reward_multiplier) := by
  obtain ⟨ef, as, rm, cls, pr, cm⟩ := t
  simp only at hcls
  subst hcls
  refine ⟨rfl, rfl, fun h1 => ongoing_runRewards_ones gss _ rfl h1⟩

/-- Witness for C2: an ongoing task that is already completed keeps
paying its multiplier when the evaluation stays at `1`. -/
theorem ongoing_task_compute_rewards_witness :
    (Task.compute_rewards
        { eval_fn := fun _ => 1, assignee := [4], reward_multiplier := 3,
          cls := .ongoing, progress := 1, completed := true } ()).1 =
      { eval_fn := fun _ => (1 : ℚ), assignee := [4], reward_multiplier := 3,
        cls := .ongoing, progress := clamp01 1,
        completed := true || decide ((1 : ℚ) ≤ clamp01 1) } ∧
    (Task.compute_rewards
        { eval_fn := fun _ => 1, assignee := [4], reward_multiplier := 3,
          cls := .ongoing, progress := 1, completed := true } ()).2.1 =
      [4].map (fun i => (i, clamp01 1 * (3 : ℚ))) ∧
    ((∀ g ∈ [(), ()], (fun (_ : Unit) => (1 : ℚ)) g = 1) →
      Task.runRewards
        { eval_fn := fun _ => 1, assignee := [4], reward_multiplier := 3,
          cls := .ongoing, progress := 1, completed := true } [(), ()] =
        [(), ()].map fun _ => (3 : ℚ)) :=
  ongoing_task_compute_rewards _ () [(), ()] rfl

/-! ### C3 -/

/-- The concrete scenario of claim C3: a default task whose evaluation
function returns `0.3` on ticks `0` and `1` and `1.0` on tick `2`, with
multiplier `2.0` and single assignee `7` (the game state is the tick). -/
def diffScenarioTask : Task ℕ :=
  { eval_fn := fun tick => if tick = 2 then 1 else 3 / 10,
    assignee := [7], reward_multiplier := 2, cls := .default }

/-- C3: a not-yet-completed default `Task` pays
`(clamp(eval_fn(gs), 0, 1) - old_progress) * reward_multiplier` to each
assignee and stores the clamped value as the new progress; in the
concrete `0.3, 0.3, 1.0` scenario with multiplier `2.0` the three tick
rewards are `0.6, 0.0, 1.4` and `completed` becomes true only after the
third tick. -/
theorem default_task_diff_reward {GS : Type} (t : Task GS) (gs : GS)
    (hcls : t.cls = .default) (hc : t.completed = false) :
    (t.compute_rewards gs).2.1 =
      t.assignee.map
        (fun i => (i, (clamp01 (t.eval_fn gs) - t.progress) * t.reward_multiplier)) ∧
    (t.compute_rewards gs).1.progress = clamp01 (t.eval_fn gs) ∧
    diffScenarioTask.runRewards [0, 1, 2] = [3 / 5, 0, 7 / 5] ∧
    (diffScenarioTask.runStates [0, 1, 2]).map (·.completed) =
      [false, false, true] := by
  obtain ⟨ef, as, rm, cls, pr, cm⟩ := t
  simp only at hcls hc
  subst hcls; subst hc
  refine ⟨rfl, rfl, ?_, ?_⟩
  · norm_num [diffScenarioTask, Task.runRewards, Task.step, clamp01]
  · norm_num [diffScenarioTask, Task.runStates, Task.step, clamp01]

/-- Witness for C3 at the concrete scenario task itself on tick `0`. -/
theorem default_task_diff_reward_witness :
    (diffScenarioTask.compute_rewards 0).2.1 =
      diffScenarioTask.assignee.map
        (fun i => (i, (clamp01 (diffScenarioTask.eval_fn 0) -
          diffScenarioTask.progress) * diffScenarioTask.reward_multiplier)) ∧
    (diffScenarioTask.compute_rewards 0).1.progress =
      clamp01 (diffScenarioTask.eval_fn 0) ∧
    diffScenarioTask.runRewards [0, 1, 2] = [3 / 5, 0, 7 / 5] ∧
    (diffScenarioTask.runStates [0, 1, 2]).map (·.completed) =
      [false, false, true] :=
  default_task_diff_reward diffScenarioTask 0 rfl rfl

/-! ### C4 -/

/-- C4: for default tasks the invariant `completed ⇔ progress ≥ 1` (with
progress in `[0,1]`) holds after construction, is preserved by every
`compute_rewards` call and holds after `reset`; and `compute_rewards`
and `reset` never change the `assignee` or `eval_fn` fields. -/
theorem default_task_invariants {GS : Type} (f : GS → ℚ) (as : List ℕ)
    (m : ℚ) (t u : Task GS) (gs : GS)
    (hmk : Task.make f as m .default = .ok t)
    (hcls : u.cls = .default) (hinv : TaskInv u) :
    TaskInv t ∧
    (TaskInv (u.compute_rewards gs).1 ∧
      (u.compute_rewards gs).1.assignee = u.assignee ∧
      (u.compute_rewards gs).1.eval_fn = u.eval_fn) ∧
    (TaskInv u.reset ∧ u.reset.assignee = u.assignee ∧
      u.reset.eval_fn = u.eval_fn) := by
  refine ⟨?_, ?_, ?_⟩
  · unfold Task.make at hmk
    split at hmk
    · exact absurd hmk (by simp)
    · obtain rfl := Except.ok.inj hmk
      constructor
      · norm_num
      · norm_num
  · obtain ⟨ef, as', rm, cls, pr, cm⟩ := u
    simp only at hcls
    subst hcls
    cases cm
    · refine ⟨⟨?_, ?_, ?_⟩, rfl, rfl⟩
      · simp [Task.compute_rewards, Task.step]
      · simpa [Task.compute_rewards, Task.step] using clamp01_nonneg (ef gs)
      · simpa [Task.compute_rewards, Task.step] using clamp01_le_one (ef gs)
    · exact ⟨hinv, rfl, rfl⟩
  · refine ⟨⟨?_, ?_, ?_⟩, rfl, rfl⟩ <;> simp [Task.reset, TaskInv]

/-- A concrete freshly constructed default task used by the C4 witness. -/
def unitDefaultTask : Task Unit :=
  { eval_fn := fun _ => 1, assignee := [2], reward_multiplier := 1,
    cls := .default }

/-- Witness for C4 at a concrete freshly constructed default task. -/
theorem default_task_invariants_witness :
    (Task.make (fun (_ : Unit) => (1 : ℚ)) [2] 1 .default =
        .ok unitDefaultTask ∧
      unitDefaultTask.cls = .default ∧ TaskInv unitDefaultTask) ∧
    TaskInv unitDefaultTask ∧
    (TaskInv (unitDefaultTask.compute_rewards ()).1 ∧
      (unitDefaultTask.compute_rewards ()).1.assignee =
        unitDefaultTask.assignee ∧
      (unitDefaultTask.compute_rewards ()).1.eval_fn =
        unitDefaultTask.eval_fn) ∧
    (TaskInv unitDefaultTask.reset ∧
      unitDefaultTask.reset.assignee = unitDefaultTask.assignee ∧
      unitDefaultTask.reset.eval_fn = unitDefaultTask.eval_fn) := by
  have hinv : TaskInv unitDefaultTask := by
    constructor
    · norm_num [unitDefaultTask]
    · norm_num [unitDefaultTask]
  exact ⟨⟨rfl, rfl, hinv⟩,
    default_task_invariants (fun _ => 1) [2] 1 _ _ () rfl rfl hinv⟩

/-! ### C8 -/

/-- `_map_progress_to_reward` reads nothing from `_reward_multiplier`:
the raw reward and the progress/completion update are the same for any
multiplier value. -/
lemma step_multiplier {GS : Type} (t : Task GS) (m : ℚ) (gs : GS) :
    ({ t with reward_multiplier := m } : Task GS).step gs =
      ({ (t.step gs).1 with reward_multiplier := m }, (t.step gs).2) := by
  obtain ⟨ef, as, rm, cls, pr, cm⟩ := t
  cases cls <;> cases cm <;> simp [Task.step]

/-- C8: for every fixed sequence of game states (hence of `eval_fn`
outputs) and every multiplier `m`, a task built with
`reward_multiplier = m` — of either the default or the ongoing class —
produces, tick by tick, exactly `m` times the reward stream of the
otherwise-identical task built with `reward_multiplier = 1`. -/
theorem reward_multiplier_linearity {GS : Type} :
    ∀ (gss : List GS) (t : Task GS) (m : ℚ),
      Task.runRewards { t with reward_multiplier := m } gss =
        (Task.runRewards { t with reward_multiplier := 1 } gss).map
          fun r => m * r := by
  intro gss
  induction gss with
  | nil => intro t m; rfl
  | cons g rest ih =>
    intro t m
    simp only [Task.runRewards, step_multiplier, List.map_cons]
    refine List.cons_eq_cons.mpr ⟨by ring, ih (t.step g).1 m⟩

/-! ### C9 -/

/-- C9: constructing a task with assignee sequence `(1, 1, 2)` stores an
assignee of length 2 (duplicates collapse), and every `compute_rewards`
call on any task maps each stored assignee id to one identical reward
value and one identical info record (same reward, same task-scoped
progress). -/
theorem assignee_dedup_broadcast {GS : Type} (f : GS → ℚ) (m : ℚ)
    (c : TaskCls) (t u : Task GS) (gs : GS)
    (hmk : Task.make f [1, 1, 2] m c = .ok t) :
    t.assignee.length = 2 ∧
    ((u.compute_rewards gs).2.1.map Prod.fst =
        (u.compute_rewards gs).1.assignee ∧
      (u.compute_rewards gs).2.2.map Prod.fst =
        (u.compute_rewards gs).1.assignee) ∧
    (∃ r, ∀ p ∈ (u.compute_rewards gs).2.1, p.2 = r) ∧
    (∃ ri, ∀ q ∈ (u.compute_rewards gs).2.2, q.2 = ri) := by
  refine ⟨?_, ⟨?_, ?_⟩,
    ⟨(u.step gs).2 * u.reward_multiplier, ?_⟩,
    ⟨((u.step gs).2 * u.reward_multiplier, (u.step gs).1.progress), ?_⟩⟩
  · simp only [Task.make] at hmk
    split at hmk
    · exact absurd hmk (by simp)
    · obtain rfl := Except.ok.inj hmk
      rfl
  · simp only [Task.compute_rewards, List.map_map]
    exact List.map_id' _
  · simp only [Task.compute_rewards, List.map_map]
    exact List.map_id' _
  · intro p hp
    simp only [Task.compute_rewards, List.mem_map] at hp
    obtain ⟨i, _, rfl⟩ := hp
    rfl
  · intro q hq
    simp only [Task.compute_rewards, List.mem_map] at hq
    obtain ⟨i, _, rfl⟩ := hq
    rfl

/-- The task the C9 witness constructs from the duplicated assignee
sequence `(1, 1, 2)`. -/
def dedupTask : Task Unit :=
  { eval_fn := fun _ => 1, assignee := [1, 2], reward_multiplier := 2,
    cls := .default }

/-- Witness for C9 at a concrete duplicated-assignee construction. -/
theorem assignee_dedup_broadcast_witness :
    (Task.make (fun (_ : Unit) => (1 : ℚ)) [1, 1, 2] 2 .default =
        .ok dedupTask) ∧
    dedupTask.assignee.length = 2 ∧
    ((dedupTask.compute_rewards ()).2.1.map Prod.fst =
        (dedupTask.compute_rewards ()).1.assignee ∧
      (dedupTask.compute_rewards ()).2.2.map Prod.fst =
        (dedupTask.compute_rewards ()).1.assignee) ∧
    (∃ r, ∀ p ∈ (dedupTask.compute_rewards ()).2.1, p.2 = r) ∧
    (∃ ri, ∀ q ∈ (dedupTask.compute_rewards ()).2.2, q.2 = ri) :=
  ⟨rfl, assignee_dedup_broadcast (fun _ => 1) 2 .default dedupTask
    dedupTask () rfl⟩

/-! ### C7 -/

/-- Stepping the `i`-th task of a batch: replace it with its state after
one `compute_rewards` call, leaving every other list slot untouched. -/
def stepTaskAt {GS : Type} (ts : List (Task GS)) (i : ℕ) (gs : GS) :
    List (Task GS) :=
  match ts[i]? with
  | none => ts
  | some t => ts.set i (t.compute_rewards gs).1

/-- C7: `make_same_task` returns exactly one task per id in `agent_list`
in input order (`[10, 20, 30]` gives exactly 3), each with the singleton
assignee of that id, fresh progress state, and an evaluation closure
built from the one shared predicate applied to that agent as subject;
and stepping the task at one position leaves the task at every other
position unchanged. -/
theorem make_same_task_independent {GS : Type} (p : PredSpec GS)
    (agents : List ℕ) (tcls : TaskCls) (kw : Kwargs) (gs : GS) :
    (make_same_task p agents tcls kw).length = agents.length ∧
    (make_same_task p [10, 20, 30] tcls kw).length = 3 ∧
    (∀ (k a : ℕ), agents[k]? = some a →
      ∃ τ : Task GS, (make_same_task p agents tcls kw)[k]? = some τ ∧
        τ.assignee = [a] ∧ τ.progress = 0 ∧ τ.completed = false ∧
        τ.cls = tcls ∧ τ.eval_fn = fun g => (p.lift).eval g [a] kw) ∧
    (∀ i j, j ≠ i →
      (stepTaskAt (make_same_task p agents tcls kw) i gs)[j]? =
        (make_same_task p agents tcls kw)[j]?) := by
  refine ⟨by simp [make_same_task], by simp [make_same_task], ?_, ?_⟩
  · intro k a hk
    refine ⟨(PredInstance.mk [a] kw p.lift).create_task_single a tcls,
      ?_, rfl, rfl, rfl, rfl, rfl⟩
    simp [make_same_task, List.getElem?_map, hk]
  · intro i j hji
    unfold stepTaskAt
    cases h : (make_same_task p agents tcls kw)[i]? with
    | none => rfl
    | some t => exact List.getElem?_set_ne (fun hij => hji hij.symm)

/-- Witness for C7 at a concrete shared predicate and agent list. -/
theorem make_same_task_independent_witness :
    (make_same_task (.fn fun (_ : Unit) _ => (1 : ℚ)) [10, 20, 30]
        .default {}).length = [10, 20, 30].length ∧
    (make_same_task (.fn fun (_ : Unit) _ => (1 : ℚ)) [10, 20, 30]
        .default {}).length = 3 ∧
    (∀ (k a : ℕ), ([10, 20, 30] : List ℕ)[k]? = some a →
      ∃ τ : Task Unit,
        (make_same_task (.fn fun (_ : Unit) _ => (1 : ℚ)) [10, 20, 30]
          .default {})[k]? = some τ ∧
        τ.assignee = [a] ∧ τ.progress = 0 ∧ τ.completed = false ∧
        τ.cls = .default ∧
        τ.eval_fn = fun g =>
          ((PredSpec.fn fun (_ : Unit) (_ : List ℕ) => (1 : ℚ)).lift).eval g [a] {}) ∧
    (∀ i j, j ≠ i →
      (stepTaskAt (make_same_task (.fn fun (_ : Unit) _ => (1 : ℚ))
          [10, 20, 30] .default {}) i ())[j]? =
        (make_same_task (.fn fun (_ : Unit) _ => (1 : ℚ)) [10, 20, 30]
          .default {})[j]?) :=
  make_same_task_independent (.fn fun _ _ => 1) [10, 20, 30] .default {} ()

/-! ### C5 -/

/-- C5 counterexample: with `teams = {A: [1,2], B: [3,4]}` for team ids
`A = 1, B = 2` and a `task_spec` of length 1, `make_team_tasks` raises an
`IndexError` (the loop evaluates `task_spec[team_id]`, indexing by the
team id, not by the loop position), so no task for team `A` is produced
and nothing is silently skipped. -/
theorem make_team_tasks_nonpositional_error :
    make_team_tasks [(1, [1, 2]), (2, [3, 4])]
      ([⟨"team", .fn fun _ _ => 1, {}⟩] : List (SpecEntry Unit)) =
      .error "IndexError: task_spec" := rfl

/-- C5 (amended): when the iterated team ids are themselves valid indices
into `task_spec` (team ids `0, 1, ...`), the loop consumes exactly the
first `min(len(teams), len(task_spec))` positions and silently skips the
rest: with `teams = {0: [1,2], 1: [3,4]}` and one spec entry, exactly the
task(s) for team `0` are produced (one team task, or one task per member
on the `agent` path) and team `1` receives none; with one team and three
spec entries, only the first entry is consumed. -/
theorem make_team_tasks_positional_truncation :
    ((make_team_tasks [(0, [1, 2]), (1, [3, 4])]
        ([⟨"team", .fn fun _ _ => 1, {}⟩] : List (SpecEntry Unit))).map
      fun r => r.1.map (fun t => t.assignee)) = .ok [[1, 2]] ∧
    ((make_team_tasks [(0, [1, 2]), (1, [3, 4])]
        ([⟨"agent", .fn fun _ _ => 1, {}⟩] : List (SpecEntry Unit))).map
      fun r => r.1.map (fun t => t.assignee)) = .ok [[1], [2]] ∧
    ((make_team_tasks [(0, [1, 2])]
        ([⟨"team", .fn fun _ _ => 1, {}⟩, ⟨"team", .fn fun _ _ => 1, {}⟩,
          ⟨"team", .fn fun _ _ => 1, {}⟩] : List (SpecEntry Unit))).map
      fun r => r.1.map (fun t => t.assignee)) = .ok [[1, 2]] :=
  ⟨rfl, rfl, rfl⟩

/-! ### C10 -/

/-- An ordinary predicate class for the C10 scenario. -/
def c10_pred : PredCls ℕ := ⟨false, fun _ _ _ => 1⟩

/-- The `AllDead` predicate class for the C10 scenario. -/
def c10_allDead : PredCls ℕ := ⟨true, fun _ _ _ => 1⟩

/-- Teams for the C10 scenario. -/
def c10_teams : List (ℕ × List ℕ) := [(0, [1, 2]), (1, [3, 4])]

/-- Task spec for the C10 scenario: entry 0 carries a `task_cls` kwarg
and a symbolic `target`; entry 1 is an `AllDead` spec with a symbolic
`target`. -/
def c10_spec : List (SpecEntry ℕ) :=
  [⟨"team", .cls c10_pred,
    { task_cls := some .ongoing, target := some (.sym "left_team"),
      extra := [("num_agent", "1")] }⟩,
   ⟨"team", .cls c10_allDead, { target := some (.sym "right_team") }⟩]

/-- C10: `make_team_tasks` mutates each consumed entry's kwargs dict in
place — `task_cls` is removed, a symbolic `target` is overwritten with
the resolved agent-id tuple (and removed entirely in the `AllDead`
branch), other keys are untouched — so after a call the caller's
`task_spec` kwargs differ from the originals, and a second call on the
same (now mutated) `task_spec` no longer sees the symbolic kwargs: it
fails the `target` validation instead of reproducing the first call. -/
theorem make_team_tasks_mutates_kwargs :
    ((make_team_tasks c10_teams c10_spec).map
        fun r => r.2.map (fun entry => entry.kwargs)) =
      .ok [{ task_cls := none, target := some (.ids [3, 4]),
             extra := [("num_agent", "1")] },
           { task_cls := none, target := none, extra := [] }] ∧
    ((make_team_tasks c10_teams c10_spec).map
        fun r => r.2.map (fun entry => entry.kwargs)) ≠
      .ok (c10_spec.map (fun entry => entry.kwargs)) ∧
    ((make_team_tasks c10_teams c10_spec).bind fun r =>
      make_team_tasks c10_teams r.2) = .error "Invalid target" := by
  refine ⟨rfl, ?_, rfl⟩
  intro h
  rw [show ((make_team_tasks c10_teams c10_spec).map
      fun r => r.2.map (fun entry => entry.kwargs)) =
    .ok [{ task_cls := none, target := some (.ids [3, 4]),
           extra := [("num_agent", "1")] },
         { task_cls := none, target := none, extra := [] }] from rfl] at h
  exact absurd (Except.ok.inj h) (by decide)

/-! ### C6 -/

/-- The `target` kwarg is present but is not one of the four valid
symbolic values (a non-enumerated string, or an already-resolved tuple). -/
def targetInvalid (kw : Kwargs) : Prop :=
  ∃ v, kw.target = some v ∧ ∀ s ∈ VALID_TARGET, v ≠ .sym s

/-- A task-spec entry that fails one of `make_team_tasks`' validations:
`reward_to` outside `{agent, team}`, or an invalid `target` kwarg. -/
def specEntryBad {GS : Type} (e : SpecEntry GS) : Prop :=
  e.reward_to ∉ REWARD_TO ∨ targetInvalid e.kwargs

/-- A loop iteration whose bound entry is invalid raises. -/
lemma processEntryCore_bad_error {GS : Type} (teams : List (ℕ × List ℕ))
    (team_id : ℕ) (e : SpecEntry GS) (hbad : specEntryBad e) :
    ∃ msg, processEntryCore teams team_id e = .error msg := by
  unfold processEntryCore
  rcases hbad with hrt | ⟨v, hv, hvalid⟩
  · rw [if_neg hrt]
    exact ⟨_, rfl⟩
  · by_cases hrt : e.reward_to ∈ REWARD_TO
    · rw [if_pos hrt]
      cases v with
      | sym s =>
        have hs : s ∉ VALID_TARGET := fun hmem => hvalid s hmem rfl
        exact ⟨"Invalid target", by simp [hv, hs]⟩
      | ids l => exact ⟨"Invalid target", by simp [hv]⟩
    · rw [if_neg hrt]
      exact ⟨_, rfl⟩

/-- Lifting `processEntryCore_bad_error` to a loop position. -/
lemma processOne_bad_error {GS : Type} (teams : List (ℕ × List ℕ))
    (spec : List (SpecEntry GS)) (idx team_id : ℕ) (mem : List ℕ)
    (e : SpecEntry GS) (hteam : teams[idx]? = some (team_id, mem))
    (hentry : spec[team_id]? = some e) (hbad : specEntryBad e) :
    ∃ msg, processOne teams spec idx = .error msg := by
  obtain ⟨msg, hmsg⟩ := processEntryCore_bad_error teams team_id e hbad
  refine ⟨msg, ?_⟩
  simp only [processOne, hteam, hentry, processEntry, hmsg]

/-- A successful loop iteration found its team and entry and only
replaced that entry (with its kwargs rewritten) in the task-spec list. -/
lemma processOne_ok_shape {GS : Type} (teams : List (ℕ × List ℕ))
    (spec spec' : List (SpecEntry GS)) (idx : ℕ) (ts : List (Task GS))
    (h : processOne teams spec idx = .ok (ts, spec')) :
    ∃ team_id mem e kw3, teams[idx]? = some (team_id, mem) ∧
      spec[team_id]? = some e ∧
      spec' = spec.set team_id { e with kwargs := kw3 } := by
  unfold processOne at h
  split at h
  · exact absurd h (by simp)
  next team_id mem hteam =>
    split at h
    · exact absurd h (by simp)
    next e hentry =>
      unfold processEntry at h
      split at h
      · exact absurd h (by simp)
      next tasks kw3 hcore =>
        refine ⟨team_id, mem, e, kw3, hteam, hentry, ?_⟩
        exact (congrArg Prod.snd (Except.ok.inj h)).symm

/-- If any bound loop position points at an invalid entry, the whole
loop raises: either an earlier iteration already raised, or execution
reaches the bad entry — other iterations only rewrite their own entry's
kwargs, never its `reward_to` or an unconsumed entry's kwargs. -/
lemma mtt_go_bad_error {GS : Type} (teams : List (ℕ × List ℕ)) :
    ∀ (idxs : List ℕ) (spec : List (SpecEntry GS)) (acc : List (Task GS)),
      (∃ idx ∈ idxs, ∃ team_id mem e, teams[idx]? = some (team_id, mem) ∧
        spec[team_id]? = some e ∧ specEntryBad e) →
      ∃ msg, mtt_go teams idxs spec acc = .error msg := by
  intro idxs
  induction idxs with
  | nil =>
    rintro spec acc ⟨idx, hidx, -⟩
    exact absurd hidx (List.not_mem_nil idx)
  | cons i0 rest ih =>
    rintro spec acc ⟨idx, hidx, tid, mem, e, hteam, hentry, hbad⟩
    rcases List.mem_cons.mp hidx with rfl | hmem
    · obtain ⟨msg, hmsg⟩ :=
        processOne_bad_error teams spec idx tid mem e hteam hentry hbad
      exact ⟨msg, by simp [mtt_go, hmsg]⟩
    · cases hpo : processOne teams spec i0 with
      | error msg => exact ⟨msg, by simp [mtt_go, hpo]⟩
      | ok res =>
        obtain ⟨new, spec1⟩ := res
        obtain ⟨tid0, mem0, e0, kw3, hteam0, hentry0, hspec1⟩ :=
          processOne_ok_shape teams spec spec1 i0 new hpo
        by_cases htid : tid = tid0
        · subst htid
          obtain ⟨msg, hmsg⟩ :=
            processOne_bad_error teams spec i0 tid mem0 e hteam0 hentry hbad
          rw [hmsg] at hpo
          exact absurd hpo (by simp)
        · have hpres : spec1[tid]? = spec[tid]? := by
            rw [hspec1]
            exact List.getElem?_set_ne fun hh => htid hh.symm
          obtain ⟨msg, hmsg⟩ := ih spec1 (acc ++ new)
            ⟨idx, hmem, tid, mem, e, hteam, by rw [hpres]; exact hentry, hbad⟩
          exact ⟨msg, by simp [mtt_go, hpo, hmsg]⟩

/-- C6: malformed inputs are fatal construction-time errors and no task
list is returned — constructing a `Task` from an empty assignee sequence
fails, and `make_team_tasks` fails whenever any bound spec entry has a
`reward_to` outside `{agent, team}` or carries a `target` kwarg that is
not one of the four enumerated relative targets. -/
theorem construction_time_errors {GS : Type} (f : GS → ℚ) (m : ℚ)
    (c : TaskCls) (teams : List (ℕ × List ℕ)) (spec : List (SpecEntry GS))
    (hbad : ∃ idx < min teams.length spec.length,
      ∃ team_id mem e, teams[idx]? = some (team_id, mem) ∧
        spec[team_id]? = some e ∧
        (e.reward_to ∉ REWARD_TO ∨ targetInvalid e.kwargs)) :
    Task.make f [] m c = .error "Assignee cannot be empty" ∧
    ∃ msg, make_team_tasks teams spec = .error msg := by
  refine ⟨rfl, ?_⟩
  obtain ⟨idx, hlt, tid, mem, e, h1, h2, h3⟩ := hbad
  exact mtt_go_bad_error teams (List.range _) spec []
    ⟨idx, List.mem_range.mpr hlt, tid, mem, e, h1, h2, h3⟩

/-- The invalid-`reward_to` entry of the C6 witness. -/
def c6_badSpec : List (SpecEntry Unit) :=
  [⟨"nobody", .fn fun _ _ => 1, {}⟩]

/-- The invalid-`target` entry of the C6 witness. -/
def c6_badTargetSpec : List (SpecEntry Unit) :=
  [⟨"team", .fn fun _ _ => 1, { target := some (.sym "enemy_team") }⟩]

/-- Witness for C6 at concrete malformed inputs: an entry whose
`reward_to` is `"nobody"`, and an entry whose `target` is the symbolic
string `"enemy_team"`. -/
theorem construction_time_errors_witness :
    ((∃ idx < min [((0 : ℕ), [(5 : ℕ)])].length c6_badSpec.length,
      ∃ team_id mem e, [((0 : ℕ), [(5 : ℕ)])][idx]? = some (team_id, mem) ∧
        c6_badSpec[team_id]? = some e ∧
        (e.reward_to ∉ REWARD_TO ∨ targetInvalid e.kwargs)) ∧
     Task.make (fun (_ : Unit) => (1 : ℚ)) [] 1 .default =
        .error "Assignee cannot be empty" ∧
     (∃ msg, make_team_tasks [((0 : ℕ), [(5 : ℕ)])] c6_badSpec =
        .error msg)) ∧
    ((∃ idx < min [((0 : ℕ), [(5 : ℕ)])].length c6_badTargetSpec.length,
      ∃ team_id mem e, [((0 : ℕ), [(5 : ℕ)])][idx]? = some (team_id, mem) ∧
        c6_badTargetSpec[team_id]? = some e ∧
        (e.reward_to ∉ REWARD_TO ∨ targetInvalid e.kwargs)) ∧
     (∃ msg, make_team_tasks [((0 : ℕ), [(5 : ℕ)])] c6_badTargetSpec =
        .error msg)) := by
  have hb1 : (∃ idx < min [((0 : ℕ), [(5 : ℕ)])].length c6_badSpec.length,
      ∃ team_id mem e, [((0 : ℕ), [(5 : ℕ)])][idx]? = some (team_id, mem) ∧
        c6_badSpec[team_id]? = some e ∧
        (e.reward_to ∉ REWARD_TO ∨ targetInvalid e.kwargs)) :=
    ⟨0, by norm_num [c6_badSpec], 0, [5], ⟨"nobody", .fn fun _ _ => 1, {}⟩,
      rfl, rfl, Or.inl (by decide)⟩
  have hb2 : (∃ idx < min [((0 : ℕ), [(5 : ℕ)])].length
        c6_badTargetSpec.length,
      ∃ team_id mem e, [((0 : ℕ), [(5 : ℕ)])][idx]? = some (team_id, mem) ∧
        c6_badTargetSpec[team_id]? = some e ∧
        (e.reward_to ∉ REWARD_TO ∨ targetInvalid e.kwargs)) :=
    ⟨0, by norm_num [c6_badTargetSpec], 0, [5],
      ⟨"team", .fn fun _ _ => 1, { target := some (.sym "enemy_team") }⟩,
      rfl, rfl, Or.inr ⟨.sym "enemy_team", rfl, by decide⟩⟩
  have h1 := construction_time_errors (fun (_ : Unit) => (1 : ℚ)) 1 .default
    [((0 : ℕ), [(5 : ℕ)])] c6_badSpec hb1
  have h2 := construction_time_errors (fun (_ : Unit) => (1 : ℚ)) 1 .default
    [((0 : ℕ), [(5 : ℕ)])] c6_badTargetSpec hb2
  exact ⟨⟨hb1, h1.1, h1.2⟩, ⟨hb2, h2.2⟩⟩

end NmmoTask